import Mathlib

/-!
# Verification of the ironswarm specification claims

Shallow embedding of the parts of the `ironswarm` distributed load generator
that the frozen claims are about, together with proofs or refutations of the
claims.

Conventions used throughout:
* Python `float` timestamps and time values are modelled as exact rationals
  (`ℚ`); the claims under scrutiny do not depend on floating-point rounding.
* Python `int` values restricted by a claim to a non-negative domain are
  modelled as `ℕ`; unrestricted ones as `ℤ`.  Python `//` and `%` on a
  positive divisor agree with `Nat.div`/`Nat.mod` on naturals and with
  `Int.ediv`/`Int.emod` on integers, which is what we use.
* Functions that can raise are modelled with `Except`/`Option`.
-/

set_option autoImplicit false

/-! ## ScenarioManager work partitioning (`scenario_manager.py`)

`node_target_volume(node_index, node_count, target_volume, journey_offset)`
distributes `target_volume` items over `node_count` nodes, rotating the
remainder window by `journey_offset`.  `node_index`, `node_count` and
`target_volume` are naturals (the claims' domain); `journey_offset` is an
arbitrary integer (`hash(journey.spec)` can be any int before the `%`). -/

def node_target_volume (node_index node_count target_volume : ℕ)
    (journey_offset : ℤ) : ℕ :=
  -- `if target_volume == 0: return 0`
  if target_volume = 0 then 0
  -- `if node_index >= node_count: return 0`
  else if node_count ≤ node_index then 0
  else
    let base_volume := target_volume / node_count
    let remainder := target_volume % node_count
    -- `remainder_start = journey_offset % node_count` (Python floor-mod,
    -- non-negative for a positive modulus, hence the `Int.toNat`)
    let remainder_start := (journey_offset % (node_count : ℤ)).toNat
    let remainder_end := (remainder_start + remainder) % node_count
    if 0 < remainder then
      if remainder_start < remainder_end then
        if remainder_start ≤ node_index ∧ node_index < remainder_end then
          base_volume + 1
        else base_volume
      else
        if remainder_start ≤ node_index ∨ node_index < remainder_end then
          base_volume + 1
        else base_volume
    else base_volume

/-- The rotated remainder-window membership test of `node_target_volume`,
named so the summation proof can reason about it separately. -/
def remainder_window (remainder_start remainder_end node_index : ℕ) : Prop :=
  if remainder_start < remainder_end then
    remainder_start ≤ node_index ∧ node_index < remainder_end
  else
    remainder_start ≤ node_index ∨ node_index < remainder_end

instance (rs re n : ℕ) : Decidable (remainder_window rs re n) :=
  if h : rs < re then
    decidable_of_iff (rs ≤ n ∧ n < re) (by unfold remainder_window; rw [if_pos h])
  else
    decidable_of_iff (rs ≤ n ∨ n < re) (by unfold remainder_window; rw [if_neg h])

/-! ## LWWElementSet, per-key semantic model (`lwwelementset.py`)

`add_set` and `remove_set` are `defaultdict(dict)`: every key conceptually
maps to a metadata dict, defaulting to the empty dict `{}` (no `"timestamp"`
key).  `add`, `remove`, `lookup` and `merge` act on each key independently,
so we model the two sides as total functions from keys to entries, with
`Entry.empty` standing for a missing/empty metadata dict.  An entry is
`⟨timestamp?, extras⟩` where `extras` is the metadata dict minus its
`"timestamp"` key; the element type `K` and the metadata value type `σ` are
parameters (Python allows any).  Wall-clock reads (`time.time()`) are passed
in explicitly as `now`. -/

structure Entry (σ : Type) where
  timestamp : Option ℚ
  extras : List (String × σ)
deriving DecidableEq

/-- `meta.get("timestamp", 0.0)`. -/
def Entry.val {σ : Type} (e : Entry σ) : ℚ := e.timestamp.getD 0

/-- The `defaultdict` default: an empty metadata dict. -/
def Entry.empty (σ : Type) : Entry σ := ⟨none, []⟩

structure LWWElementSet (K σ : Type) where
  add_set : K → Entry σ
  remove_set : K → Entry σ

/-- The per-key body of `LWWElementSet.add` once the effective timestamp `t`
is known: `if timestamp >= old_ts: self.add_set[element] = {"timestamp":
timestamp, **added_values}`. -/
def addEntry {σ : Type} (e : Entry σ) (t : ℚ) (x : List (String × σ)) :
    Entry σ :=
  if t ≥ e.val then ⟨some t, x⟩ else e

/-- `LWWElementSet.add(element, timestamp=None, **added_values)`.
`timestamp = timestamp or time.time()`: a missing (`None`) or zero timestamp
is replaced by the current wall clock, passed here as `now`. -/
def LWWElementSet.add {K σ : Type} [DecidableEq K] (s : LWWElementSet K σ)
    (element : K) (timestamp : Option ℚ) (now : ℚ)
    (added_values : List (String × σ)) : LWWElementSet K σ :=
  let t := if timestamp.getD 0 = 0 then now else timestamp.getD 0
  ⟨fun k => if k = element then addEntry (s.add_set element) t added_values
            else s.add_set k,
   s.remove_set⟩

/-- `LWWElementSet.remove(element, timestamp=None, **removed_values)`,
symmetric to `add` on `remove_set`. -/
def LWWElementSet.remove {K σ : Type} [DecidableEq K] (s : LWWElementSet K σ)
    (element : K) (timestamp : Option ℚ) (now : ℚ)
    (removed_values : List (String × σ)) : LWWElementSet K σ :=
  let t := if timestamp.getD 0 = 0 then now else timestamp.getD 0
  ⟨s.add_set,
   fun k => if k = element then addEntry (s.remove_set element) t removed_values
            else s.remove_set k⟩

/-- `LWWElementSet.lookup(element)`: the add-side metadata when
`add_ts > remove_ts` (missing timestamps read as `0.0`), otherwise `False`
(here `none`). -/
def LWWElementSet.lookup {K σ : Type} (s : LWWElementSet K σ) (element : K) :
    Option (Entry σ) :=
  if (s.add_set element).val > (s.remove_set element).val then
    some (s.add_set element)
  else none

/-- The per-key action of `LWWElementSet.merge` on one side: entries whose
timestamp is missing or zero are skipped (`if not meta.get("timestamp"):
continue`), otherwise `add(e, **extras, timestamp=meta["timestamp"])` runs
with the (nonzero) stored timestamp. -/
def mergeEntry {σ : Type} (a b : Entry σ) : Entry σ :=
  if b.val = 0 then a else addEntry a b.val b.extras

/-- `LWWElementSet.merge(other)`: element-wise on both sides.  Keys that are
not materialised in `other`'s dicts carry the empty entry, which `mergeEntry`
skips, so the pointwise form is faithful. -/
def LWWElementSet.merge {K σ : Type} (s other : LWWElementSet K σ) :
    LWWElementSet K σ :=
  ⟨fun k => mergeEntry (s.add_set k) (other.add_set k),
   fun k => mergeEntry (s.remove_set k) (other.remove_set k)⟩

/-- An entry is clean when it is either the untouched default or carries a
positive timestamp (the shape every entry produced by `add`/`remove` with a
positive wall clock has). -/
def Entry.cleanB {σ : Type} [DecidableEq σ] (e : Entry σ) : Bool :=
  match e.timestamp with
  | none => decide (e.extras = [])
  | some t => decide (0 < t)

/-- Two entries are separated when their stored timestamps differ (vacuously
when either side has no timestamp). -/
def Entry.sepB {σ : Type} (a b : Entry σ) : Bool :=
  match a.timestamp, b.timestamp with
  | some s, some t => decide (s ≠ t)
  | _, _ => true

/-! ## Transport timeout handling (`transport/zmq.py`)

The state-visible effect of the timeout branch of `ZMQTransport.send`
(`else:` after the poll): `state[key].remove(node_id)` — an LWW remove of
`node_id`, with wall-clock timestamp, from the set stored under the key that
was being gossiped.  No other key of `state` is touched. -/

def sendTimeoutHandle {σ : Type} (state : String → LWWElementSet String σ)
    (key node_id : String) (now : ℚ) : String → LWWElementSet String σ :=
  fun k => if k = key then (state key).remove node_id none now [] else state k

/-! ## VolumeModel (`volumemodel.py`)

`DynamicVolumeModel.__call__`: `JourneyComplete` (here `none`) once
`time_delta` reaches a truthy `duration`; a linear ramp up while
`time_delta ≤ ramp_up` (when `ramp_up` is truthy); `_ramp_down` once
`time_delta ≥ ramp_down` (when `ramp_down` is truthy); otherwise `target`.
`__init__` stores `ramp_up or 0` (so `ramp_up : ℤ`) and guarantees that a
set `ramp_down` comes with a set `duration`, which is why reading
`duration.getD 0` inside `_ramp_down` is faithful.  `math.ceil` on the float
quotient is modelled as `Int.ceil` on exact rationals. -/

structure DynamicVolumeModel where
  target : ℤ
  duration : Option ℤ
  ramp_up : ℤ
  ramp_down : Option ℤ

def DynamicVolumeModel.call (m : DynamicVolumeModel) (time_delta : ℤ) :
    Option ℤ :=
  if m.duration.getD 0 ≠ 0 ∧ time_delta ≥ m.duration.getD 0 then
    none
  else if m.ramp_up ≠ 0 ∧ time_delta ≤ m.ramp_up then
    some ⌈(m.target : ℚ) * ((time_delta : ℚ) / (m.ramp_up : ℚ))⌉
  else if m.ramp_down.getD 0 ≠ 0 ∧ time_delta ≥ m.ramp_down.getD 0 then
    some ⌈(m.target : ℚ) *
      (((m.duration.getD 0 - time_delta : ℤ) : ℚ) /
        ((m.duration.getD 0 - m.ramp_down.getD 0 : ℤ) : ℚ))⌉
  else some m.target

/-! ## Datapools (`datapools/`)

`checkout(start, stop)` on the in-memory pools validates its bounds and
returns (an iterator over) a slice of the realised item list; the recyclable
variant wraps around instead of erroring when `stop < start`.  The
file-backed pools scan lines from the closest index point; for a data file
below the 1,000,000-line index interval the single index entry sits at the
last line, so the scan always starts at offset 0 (for `start ≥ len` the
scan then also yields nothing, exactly as seeking to the last index point
would). -/

/-- `items[start:stop]` for `0 ≤ start ≤ len(items)` and `0 ≤ stop`. -/
def pySlice {α : Type} (items : List α) (start stop : ℕ) : List α :=
  (items.drop start).take (stop - start)

/-- `IterableDatapool.checkout`; `recyclable` is the `_recyclable` flag
(`False` for `IterableDatapool` itself). -/
def IterableDatapool.checkout {α : Type} (items : List α) (recyclable : Bool)
    (start : ℤ) (stop : Option ℤ) : Except String (List α) :=
  if start < 0 then .error "start must be non-negative"
  else if start > (items.length : ℤ) then
    .error "start index exceeds datapool length"
  else
    match stop with
    | none => .ok (items.drop start.toNat)
    | some v =>
      if v < 0 then .error "stop must be non-negative"
      else if ¬ recyclable ∧ v < start then
        .error "stop must be greater or equal to start for non-recyclable datapool"
      else .ok (pySlice items start.toNat v.toNat)

/-- `RecyclableDatapool.checkout`: same bound checks except that
`stop < start` wraps around (`items[start:] ++ items[:stop]`). -/
def RecyclableDatapool.checkout {α : Type} (items : List α)
    (start : ℤ) (stop : Option ℤ) : Except String (List α) :=
  if start < 0 then .error "start must be non-negative"
  else if start > (items.length : ℤ) then
    .error "start index exceeds datapool length"
  else
    match stop with
    | none => .ok (items.drop start.toNat)
    | some v =>
      if v < 0 then .error "stop must be non-negative"
      else if v < start then
        .ok (items.drop start.toNat ++ items.take v.toNat)
      else .ok (pySlice items start.toNat v.toNat)

/-- The scan loop of `FileDatapool._extract_chunk`, starting from index point
`(current, offset 0)`: each line bumps `current_line_number`, is yielded once
`current_line_number > start`, and the loop breaks after the yield when
`stop` is truthy and `current_line_number >= stop`. -/
def FileDatapool.extractLoop (rest : List String) (current start : ℤ)
    (stop : Option ℤ) : List String :=
  match rest with
  | [] => []
  | line :: ls =>
    let c := current + 1
    let yielded := if c > start then [line] else []
    if stop.getD 0 ≠ 0 ∧ c ≥ stop.getD 0 then yielded
    else yielded ++ FileDatapool.extractLoop ls c start stop

/-- `FileDatapool.checkout` simply returns `_extract_chunk(start, stop)` —
there is no argument validation. -/
def FileDatapool.checkout (lines : List String) (start : ℤ)
    (stop : Option ℤ) : List String :=
  FileDatapool.extractLoop lines 0 start stop

/-- `RecyclableFileDatapool.checkout`: wraps (`_extract_chunk(start, len)`
then `_extract_chunk(0, stop)`) when `stop is not None and stop < start`. -/
def RecyclableFileDatapool.checkout (lines : List String) (start : ℤ)
    (stop : Option ℤ) : List String :=
  match stop with
  | some v =>
    if v < start then
      FileDatapool.extractLoop lines 0 start (some (lines.length : ℤ)) ++
        FileDatapool.extractLoop lines 0 0 (some v)
    else FileDatapool.checkout lines start stop
  | none => FileDatapool.checkout lines start stop

/-! ## Serialization and wire schema (`serialization.py`)

A second, dict-level model of `LWWElementSet` is needed here: serialization
walks the materialised dicts (insertion-ordered association lists with
unique keys), and the `defaultdict` materialisation side effect of `lookup`
is exactly what claim C9 is about.  `msgpack.packb`/`unpackb` are external
to the repository and are modelled as the identity on decoded values (`Val`
covers everything msgpack can decode here; packing a `Val` never raises,
and the 10 MiB byte-size guards are outside the value-level model). -/

inductive Val where
  | str : String → Val
  | int : Int → Val
  | float : ℚ → Val
  | bool : Bool → Val
  | null : Val
  | list : List Val → Val
  | map : List (String × Val) → Val

def MAX_COLLECTION_SIZE : ℕ := 100000
def MAX_METADATA_KEYS : ℕ := 50
def MAX_STRING_LENGTH : ℕ := 10 * 1024

/-- `isinstance(value, (str, int, float, bool, type(None)))`. -/
def isScalar (v : Val) : Bool :=
  match v with
  | .list _ => false
  | .map _ => false
  | _ => true

/-- The string-length limit applied to scalar metadata values. -/
def scalarLenOk (v : Val) : Bool :=
  match v with
  | .str s => decide (s.length ≤ MAX_STRING_LENGTH)
  | _ => true

/-- `isinstance(x, (int, float))` plus the numeric value: Python `bool` is a
subclass of `int`, so booleans count as numbers there. -/
def numVal (v : Val) : Option ℚ :=
  match v with
  | .int n => some (n : ℚ)
  | .float q => some q
  | .bool b => some (if b then 1 else 0)
  | _ => none

/-- The per-value loop of `validate_metadata` (every key except
`"timestamp"` must hold a scalar within the string-length limit). -/
def validateMetaValues (entries : List (String × Val)) : Except String Unit :=
  match entries with
  | [] => .ok ()
  | (k, v) :: rest =>
    if k = "timestamp" then validateMetaValues rest
    else if ¬ isScalar v then .error "Unsupported type"
    else if ¬ scalarLenOk v then .error "String too long"
    else validateMetaValues rest

/-- `validate_metadata(data, context)`. -/
def validate_metadata (v : Val) : Except String Unit :=
  match v with
  | .map entries =>
    if entries.length > MAX_METADATA_KEYS then .error "Too many metadata keys"
    else
      match List.lookup "timestamp" entries with
      | none => .error "Missing required timestamp key"
      | some tv =>
        match numVal tv with
        | none => .error "timestamp: Expected number"
        | some q =>
          if q < 0 then .error "timestamp: Cannot be negative"
          else validateMetaValues entries
  | _ => .error "Expected dict"

/-- The per-element loop of `validate_element_set`: keys are strings by the
type of `Val.map`, bounded in length, and each value must validate as
metadata. -/
def validateElems (entries : List (String × Val)) : Except String Unit :=
  match entries with
  | [] => .ok ()
  | (k, v) :: rest =>
    if k.length > MAX_STRING_LENGTH then .error "Key too long"
    else
      match validate_metadata v with
      | .error e => .error e
      | .ok _ => validateElems rest

/-- `validate_element_set(data, context)`. -/
def validate_element_set (v : Val) : Except String Unit :=
  match v with
  | .map entries =>
    if entries.length > MAX_COLLECTION_SIZE then .error "Too many elements"
    else validateElems entries
  | _ => .error "Expected dict"

/-- `set(data.keys()) == {"add_set", "remove_set"}`. -/
def keysMatch (ks : List String) : Bool :=
  ks.all (fun k => k = "add_set" || k = "remove_set") &&
    ks.contains "add_set" && ks.contains "remove_set"

/-- `validate_lww_dict(data, context)`. -/
def validate_lww_dict (v : Val) : Except String Unit :=
  match v with
  | .map entries =>
    if keysMatch (entries.map Prod.fst) then
      match List.lookup "add_set" entries, List.lookup "remove_set" entries with
      | some a, some r =>
        (match validate_element_set a with
         | .error e => .error e
         | .ok _ => validate_element_set r)
      | _, _ => .error "Expected keys add_set and remove_set"
    else .error "Expected keys add_set and remove_set"
  | _ => .error "Expected dict"

/-- The dict-level state of an `LWWElementSet`: the materialised entries of
`add_set` and `remove_set` in insertion order, values being the metadata
dicts. -/
structure LWWData where
  add_set : List (String × Val)
  remove_set : List (String × Val)

/-- `LWWElementSet.to_dict()`. -/
def LWWData.to_dict (d : LWWData) : Val :=
  .map [("add_set", .map d.add_set), ("remove_set", .map d.remove_set)]

/-- `LWWElementSet.from_dict(data)` (the `KeyError`/`TypeError` paths are
caught and re-raised as `SerializationError` by `deserialize_lww`). -/
def LWWData.from_dict (v : Val) : Except String LWWData :=
  match v with
  | .map entries =>
    match List.lookup "add_set" entries, List.lookup "remove_set" entries with
    | some (.map a), some (.map r) => .ok ⟨a, r⟩
    | _, _ => .error "Failed to construct LWWElementSet"
  | _ => .error "Failed to construct LWWElementSet"

/-- `serialize_lww`: `msgpack.packb(lww.to_dict())`.  Packing the values in
`Val` never raises, and the byte-size guard is not part of the value-level
model, so serialization always succeeds with the encoded dict. -/
def serialize_lww (d : LWWData) : Except String Val :=
  .ok d.to_dict

/-- `deserialize_lww`: unpack (identity at the value level), validate the
schema, then `from_dict`. -/
def deserialize_lww (v : Val) : Except String LWWData :=
  match validate_lww_dict v with
  | .error e => .error e
  | .ok _ => LWWData.from_dict v

/-- Python dict assignment `d[k] = v`: replace in place if the key exists,
else append. -/
def dset (d : List (String × Val)) (k : String) (v : Val) :
    List (String × Val) :=
  match d with
  | [] => [(k, v)]
  | (k0, v0) :: rest =>
    if k0 = k then (k, v) :: rest else (k0, v0) :: dset rest k v

/-- `defaultdict` access `d[k]` on the dict level: materialise the key with
an empty dict when missing. -/
def dtouch (d : List (String × Val)) (k : String) : List (String × Val) :=
  if (List.lookup k d).isSome then d else d ++ [(k, .map [])]

/-- `meta.get("timestamp", 0.0)` on a metadata dict value (numeric where the
claims use it). -/
def metaTs (v : Val) : ℚ :=
  match v with
  | .map m =>
    match List.lookup "timestamp" m with
    | some tv => (numVal tv).getD 0
    | none => 0
  | _ => 0

/-- Dict-level `LWWElementSet.add` for an explicit nonzero timestamp:
`self.add_set[element]` materialises the key, then the entry is replaced when
`timestamp >= old_ts` with `{"timestamp": timestamp, **added_values}`
(insertion order: timestamp first). -/
def LWWData.add (d : LWWData) (element : String) (timestamp : ℚ)
    (added_values : List (String × Val)) : LWWData :=
  let a1 := dtouch d.add_set element
  let old := metaTs ((List.lookup element a1).getD (.map []))
  if timestamp ≥ old then
    ⟨dset a1 element (.map (("timestamp", .float timestamp) :: added_values)),
     d.remove_set⟩
  else ⟨a1, d.remove_set⟩

/-- Dict-level `LWWElementSet.lookup`: reading `self.add_set[element]` and
`self.remove_set[element]` materialises the key in BOTH `defaultdict`s; the
result is the add-side dict when `add_ts > remove_ts`. -/
def LWWData.lookup (d : LWWData) (element : String) : LWWData × Option Val :=
  let a1 := dtouch d.add_set element
  let r1 := dtouch d.remove_set element
  let add_ts := metaTs ((List.lookup element a1).getD (.map []))
  let remove_ts := metaTs ((List.lookup element r1).getD (.map []))
  (⟨a1, r1⟩,
   if add_ts > remove_ts then some ((List.lookup element a1).getD (.map []))
   else none)

/-- The claim's notion of a valid wire metadata dict: a dict (unique keys)
within the key budget, a present non-negative numeric timestamp, scalar
values within the string-length limit. -/
def wfMeta (v : Val) : Bool :=
  match v with
  | .map entries =>
    decide ((entries.map Prod.fst).Nodup) &&
    decide (entries.length ≤ MAX_METADATA_KEYS) &&
    (match List.lookup "timestamp" entries with
     | some tv =>
       (match numVal tv with
        | some q => decide (0 ≤ q)
        | none => false)
     | none => false) &&
    entries.all (fun kv => isScalar kv.2 && scalarLenOk kv.2)
  | _ => false

/-- The claim's notion of a valid wire message: both sides are dicts with
unique string keys within the size limits, every entry a valid metadata
dict. -/
def wfLWW (d : LWWData) : Bool :=
  decide ((d.add_set.map Prod.fst).Nodup) &&
  decide ((d.remove_set.map Prod.fst).Nodup) &&
  decide (d.add_set.length ≤ MAX_COLLECTION_SIZE) &&
  decide (d.remove_set.length ≤ MAX_COLLECTION_SIZE) &&
  d.add_set.all (fun kv => decide (kv.1.length ≤ MAX_STRING_LENGTH) && wfMeta kv.2) &&
  d.remove_set.all (fun kv => decide (kv.1.length ≤ MAX_STRING_LENGTH) && wfMeta kv.2)

/-! ## ScenarioManager.work argument defaulting (`scenario_manager.py`)

`def work(self, work_index=None)` begins with
`work_index = work_index or self.work_index()`: both `None` and `0` are
falsy, so an explicit `work_index=0` is replaced by the current index
`int(self.elapsed // self.scenario.interval)`, and the rest of `work`
depends on the argument only through this effective index
(`work_start_time = work_index * self.scenario.interval`, completion
comparisons, and the `work_index > 0` datapool fast-forward). -/

/-- `ScenarioManager.work_index()`: `int(self.elapsed //
self.scenario.interval)` with `elapsed = now - start_time`. -/
def ScenarioManager.work_index (now start_time : ℚ) (interval : ℕ) : ℤ :=
  ⌊(now - start_time) / (interval : ℚ)⌋

/-- `work_index = work_index or self.work_index()`. -/
def ScenarioManager.workEffectiveIndex (work_index : Option ℤ)
    (current_index : ℤ) : ℤ :=
  if work_index.getD 0 = 0 then current_index else work_index.getD 0

/-- `work_start_time = work_index * self.scenario.interval` (after the
defaulting). -/
def ScenarioManager.work_start_time (work_index : Option ℤ)
    (current_index interval : ℤ) : ℤ :=
  ScenarioManager.workEffectiveIndex work_index current_index * interval

/-! ## Concrete instances used by counterexamples and witnesses -/

/-- An empty LWW set (nothing materialised). -/
def emptyLWW (σ : Type) : LWWElementSet String σ :=
  ⟨fun _ => Entry.empty σ, fun _ => Entry.empty σ⟩

/-- A set holding a single add-side entry for key `k`. -/
def singleAdd (σ : Type) (k : String) (e : Entry σ) : LWWElementSet String σ :=
  ⟨fun k' => if k' = k then e else Entry.empty σ, fun _ => Entry.empty σ⟩

/-- Whether an `Except` computation succeeded (Python: no exception was
raised). -/
def isOkB {ε α : Type} : Except ε α → Bool
  | .ok _ => true
  | .error _ => false

/-- C2: three sets with pairwise distinct positive timestamps on the shared
key. -/
def c2A1 : LWWElementSet String Int := singleAdd Int "k" ⟨some 1, [("v", 10)]⟩

def c2B1 : LWWElementSet String Int := singleAdd Int "k" ⟨some 2, [("v", 20)]⟩

def c2C1 : LWWElementSet String Int := singleAdd Int "k" ⟨some 3, [("v", 30)]⟩

/-- C2: same key, equal timestamps, different metadata. -/
def c2B : LWWElementSet String Int := singleAdd Int "k" ⟨some 5, [("v", 1)]⟩

def c2C : LWWElementSet String Int := singleAdd Int "k" ⟨some 5, [("v", 2)]⟩

/-- C3: the `DynamicVolumeModel(target=100, duration=20, ramp_down=15)` of
the repository's own test suite. -/
def c3model : DynamicVolumeModel :=
  ⟨100, some 20, 0, some 15⟩

/-- C5: a gossip state whose node register knows node `"n"`. -/
def c5state : String → LWWElementSet String Int :=
  fun k => if k = "node_register" then singleAdd Int "n" ⟨some 5, []⟩
           else emptyLWW Int

/-- C7: a one-element wire message with scalar metadata. -/
def c7data : LWWData :=
  ⟨[("n1", .map [("timestamp", .float 5), ("host", .str "h")])], []⟩

/-- C8: a set whose add side stores timestamp 5 for key `"k"`. -/
def c8state : LWWElementSet String Int := singleAdd Int "k" ⟨some 5, []⟩

/-- C9: fresh set, one add with valid scalar metadata. -/
def c9afterAdd : LWWData :=
  LWWData.add ⟨[], []⟩ "a" 5 [("host", .str "h")]

/-- C9: ... then a lookup of the never-added key `"b"`. -/
def c9afterLookup : LWWData := (c9afterAdd.lookup "b").1

theorem node_target_volume_eq_base_add (node_index node_count target_volume : ℕ)
    (journey_offset : ℤ) (hn : node_index < node_count) (ht : target_volume ≠ 0) :
    node_target_volume node_index node_count target_volume journey_offset =
      target_volume / node_count +
        (if 0 < target_volume % node_count ∧
            remainder_window ((journey_offset % (node_count : ℤ)).toNat)
              (((journey_offset % (node_count : ℤ)).toNat +
                target_volume % node_count) % node_count) node_index
          then 1 else 0) := by
  unfold node_target_volume remainder_window
  simp only [ht, if_false, Nat.not_le.mpr hn, if_neg (Nat.not_le.mpr hn)]
  split
  · split <;> split <;> simp_all
  · simp_all

/-- **C1.** For every `node_count > 0`, every `target_volume ≥ 0` and every
`journey_offset`, the values of `node_target_volume` over all node indices in
`[0, node_count)` sum to exactly `target_volume`. -/
theorem c1_node_target_volume_sum (node_count target_volume : ℕ)
    (journey_offset : ℤ) (h : 0 < node_count) :
    Finset.sum (Finset.range node_count)
      (fun n => node_target_volume n node_count target_volume journey_offset) =
      target_volume := by
  by_cases ht : target_volume = 0
  · subst ht; simp [node_target_volume]
  · set c := node_count with hc
    set base := target_volume / c with hbase
    set r := target_volume % c with hr
    set rs := (journey_offset % (c : ℤ)).toNat with hrs
    set re := (rs + r) % c with hre
    have hrc : r < c := Nat.mod_lt _ h
    have hrsc : rs < c := by
      have h1 : journey_offset % (c : ℤ) < (c : ℤ) :=
        Int.emod_lt_of_pos _ (by exact_mod_cast h)
      have h2 : (0 : ℤ) ≤ journey_offset % (c : ℤ) :=
        Int.emod_nonneg _ (by exact_mod_cast h.ne')
      omega
    have hsplit :
        Finset.sum (Finset.range c)
          (fun n => node_target_volume n c target_volume journey_offset) =
        Finset.sum (Finset.range c) (fun _ => base) +
        Finset.sum (Finset.range c)
          (fun n => if 0 < r ∧ remainder_window rs re n then 1 else 0) := by
      rw [← Finset.sum_add_distrib]
      refine Finset.sum_congr rfl (fun n hn => ?_)
      exact node_target_volume_eq_base_add n c target_volume journey_offset
        (Finset.mem_range.mp hn) ht
    have hconst : Finset.sum (Finset.range c) (fun _ => base) = c * base := by
      simp [Finset.sum_const, Finset.card_range, Nat.mul_comm]
    have htot : c * base + r = target_volume := Nat.div_add_mod target_volume c
    rcases Nat.eq_zero_or_pos r with hr0 | hrpos
    · have : Finset.sum (Finset.range c)
          (fun n => if 0 < r ∧ remainder_window rs re n then 1 else 0) = 0 := by
        refine Finset.sum_eq_zero (fun n _ => ?_)
        simp [hr0]
      omega
    · have hcard :
          Finset.sum (Finset.range c)
            (fun n => if 0 < r ∧ remainder_window rs re n then 1 else 0) =
          ((Finset.range c).filter (fun n => remainder_window rs re n)).card := by
        rw [Finset.card_filter]
        refine Finset.sum_congr rfl (fun n _ => ?_)
        simp [hrpos]
      rcases Nat.lt_or_ge (rs + r) c with hlt | hge
      · -- no wraparound: the window is `[rs, rs + r)`
        have hre' : re = rs + r := by
          rw [hre, Nat.mod_eq_of_lt hlt]
        have hwin : ∀ n, remainder_window rs re n ↔ (rs ≤ n ∧ n < re) := by
          intro n
          unfold remainder_window
          rw [if_pos (by omega)]
        have hfilter :
            (Finset.range c).filter (fun n => remainder_window rs re n) =
              Finset.Ico rs re := by
          ext n
          simp only [Finset.mem_filter, Finset.mem_range, Finset.mem_Ico, hwin]
          omega
        rw [hcard, hfilter] at hsplit
        rw [hsplit, hconst, Nat.card_Ico]
        omega
      · -- wraparound: the window is `[rs, c) ∪ [0, re)`
        have hre' : re = rs + r - c := by
          have h2 : rs + r - c < c := by omega
          have h3 : (rs + r) % c = (rs + r - c) % c := by
            conv_lhs => rw [show rs + r = (rs + r - c) + c by omega]
            rw [Nat.add_mod_right]
          rw [hre, h3, Nat.mod_eq_of_lt h2]
        have hrelt : re < rs := by omega
        have hwin : ∀ n, remainder_window rs re n ↔ (rs ≤ n ∨ n < re) := by
          intro n
          unfold remainder_window
          rw [if_neg (by omega)]
        have hneg :
            (Finset.range c).filter (fun n => ¬ remainder_window rs re n) =
              Finset.Ico re rs := by
          ext n
          simp only [Finset.mem_filter, Finset.mem_range, Finset.mem_Ico, hwin]
          omega
        have hsum2 :
            ((Finset.range c).filter (fun n => remainder_window rs re n)).card +
            ((Finset.range c).filter (fun n => ¬ remainder_window rs re n)).card =
              c := by
          rw [Finset.filter_card_add_filter_neg_card_eq_card, Finset.card_range]
        rw [hneg, Nat.card_Ico] at hsum2
        rw [hcard] at hsplit
        omega

/-- Witness for C1 at a concrete input: 3 nodes, 7 items, offset 5. -/
theorem c1_witness :
    0 < 3 ∧
      Finset.sum (Finset.range 3)
        (fun n => node_target_volume n 3 7 (5 : ℤ)) = 7 :=
  ⟨by decide, c1_node_target_volume_sum 3 7 (5 : ℤ) (by decide)⟩

/-! ## C10: `work(work_index=0)` is defaulted away -/

/-- **C10.** Calling `ScenarioManager.work` with the explicit argument
`work_index=0` does not compute the work items for index 0: the
`work_index or self.work_index()` defaulting replaces the falsy `0`, so the
call behaves identically to `work()` with no argument and uses the current
index `floor((now - start_time) / interval)`; the interval start time is
derived from that effective index. -/
theorem c10_work_index_zero_defaulted (now start_time : ℚ) (interval : ℕ)
    (i iv : ℤ) :
    ScenarioManager.workEffectiveIndex (some 0) i =
      ScenarioManager.workEffectiveIndex none i ∧
    ScenarioManager.workEffectiveIndex (some 0)
        (ScenarioManager.work_index now start_time interval) =
      ScenarioManager.work_index now start_time interval ∧
    ScenarioManager.work_start_time (some 0) i iv = i * iv := by
  refine ⟨rfl, rfl, rfl⟩

/-! ## C3: the ramp-down formula -/

/-- **C3, counterexample.**  For `DynamicVolumeModel(target=100, duration=20,
ramp_down=15)` at `t = 18` (the repository's own
`test_dynamic_volumemodel_ramp_down` input, with `ramp_up = 0 < 18 < 20 =
duration` and `18 ≥ duration - ramp_down = 5`) the code returns 40, not the
claimed `ceil(target * (duration - t) / ramp_down) = ceil(200 / 15) = 14`. -/
theorem c3_counterexample :
    c3model.call 18 = some 40 ∧
      (40 : ℤ) ≠ ⌈(100 : ℚ) * (((20 - 18 : ℤ) : ℚ) / (15 : ℚ))⌉ := by
  constructor
  · show (if (20 : ℤ) ≠ 0 ∧ (18 : ℤ) ≥ 20 then none
      else if (0 : ℤ) ≠ 0 ∧ (18 : ℤ) ≤ 0 then
        some ⌈(100 : ℚ) * ((18 : ℚ) / (0 : ℚ))⌉
      else if (15 : ℤ) ≠ 0 ∧ (18 : ℤ) ≥ 15 then
        some ⌈(100 : ℚ) * (((20 - 18 : ℤ) : ℚ) / ((20 - 15 : ℤ) : ℚ))⌉
      else some 100) = some 40
    norm_num
  · have h : (100 : ℚ) * (((20 - 18 : ℤ) : ℚ) / (15 : ℚ)) = 40 / 3 := by
      norm_num
    rw [h]
    have h2 : ⌈(40 : ℚ) / 3⌉ = 14 := by
      rw [Int.ceil_eq_iff]
      constructor <;> norm_num
    rw [h2]
    omega

/-- **C3, amended.**  In the code, `ramp_down` is the *time at which the
ramp-down begins*, not its length: for every model with `duration = some d`
and nonzero `ramp_down = some r`, and every `t` with `ramp_up < t < d` and
`r ≤ t`, the call returns `ceil(target * (d - t) / (d - r))` (the guard
compares `t` against `ramp_down` itself and the divisor is
`duration - ramp_down`). -/
theorem c3_amended_ramp_down (m : DynamicVolumeModel) (t d r : ℤ)
    (hd : m.duration = some d) (hr : m.ramp_down = some r) (hr0 : r ≠ 0)
    (h1 : m.ramp_up < t) (h2 : t < d) (h3 : r ≤ t) :
    m.call t =
      some ⌈(m.target : ℚ) * (((d - t : ℤ) : ℚ) / ((d - r : ℤ) : ℚ))⌉ := by
  unfold DynamicVolumeModel.call
  rw [hd, hr]
  simp only [Option.getD_some]
  rw [if_neg (by omega), if_neg (by omega), if_pos (by omega)]

/-- Witness for C3 on the test-suite model at `t = 18`. -/
theorem c3_witness :
    c3model.ramp_up < 18 ∧
      c3model.call 18 =
        some ⌈(c3model.target : ℚ) *
          (((20 - 18 : ℤ) : ℚ) / ((20 - 15 : ℤ) : ℚ))⌉ :=
  ⟨by decide,
   c3_amended_ramp_down c3model 18 20 15 rfl rfl (by decide) (by decide)
     (by decide) (by decide)⟩

/-! ## C4: the recyclable `checkout(s, (s+L) mod L)` -/

/-- **C4, counterexample.**  For the pool `["a","b","c"]` (`L = 3`) and
`s = 1`, `(s + L) mod L = 1 = s`, and `checkout(1, 1)` takes the non-wrap
branch (`stop < start` is false), yielding the empty slice — not every
element exactly once. -/
theorem c4_counterexample :
    RecyclableDatapool.checkout ["a", "b", "c"] 1 (some ((1 + 3) % 3)) =
      .ok ([] : List String) ∧
    ¬ ([] : List String).Perm ["a", "b", "c"] :=
  ⟨rfl, by decide⟩

/-- With `stop = 0`, the break check `if stop and current_line_number >=
stop` never fires (`0` is falsy), so the scan yields every remaining line
once `current_line_number` has passed `start = 0`. -/
theorem FileDatapool.extractLoop_stop_zero (lines : List String) (cur : ℤ)
    (h : 0 ≤ cur) :
    FileDatapool.extractLoop lines cur 0 (some 0) = lines := by
  induction lines generalizing cur with
  | nil => rfl
  | cons l ls ih =>
    unfold FileDatapool.extractLoop
    simp only [Option.getD_some]
    rw [if_neg (fun hc => hc.1 rfl)]
    rw [if_pos (by omega : cur + 1 > (0 : ℤ))]
    rw [ih (cur + 1) (by omega)]
    rfl

/-- With a nonzero `stop = s` and the scan still strictly before `s`, the
break at `current_line_number >= stop` is reached before any line satisfies
`current_line_number > start = s`, so nothing is yielded. -/
theorem FileDatapool.extractLoop_before_stop (lines : List String)
    (cur s : ℤ) (hcs : cur < s) (hs : s ≠ 0) :
    FileDatapool.extractLoop lines cur s (some s) = [] := by
  induction lines generalizing cur with
  | nil => rfl
  | cons l ls ih =>
    unfold FileDatapool.extractLoop
    simp only [Option.getD_some]
    rw [if_neg (by omega : ¬ cur + 1 > s)]
    by_cases hc : cur + 1 ≥ s
    · rw [if_pos ⟨hs, hc⟩]
    · rw [if_neg (fun hcon => hc hcon.2)]
      rw [ih (cur + 1) (by omega)]
      rfl

/-- **C4, amended.**  For every recyclable datapool of length `L > 0` and
every start `0 ≤ s < L`, `(s + L) mod L = s`, so the call is
`checkout(s, s)`.  The in-memory `RecyclableDatapool` then yields no element
for every such `s` (the wrap-around branch requires `stop < start`
strictly).  The file-backed `RecyclableFileDatapool` yields no element for
`1 ≤ s < L`, but at `s = 0` the stop value `0` is falsy in
`_extract_chunk`'s `if stop and current_line_number >= stop` check, so
`checkout(0, 0)` yields every line exactly once — the single start position
at which the original claim holds, and only for the file-backed variant. -/
theorem c4_amended_recyclable_checkout :
    (∀ (α : Type) (items : List α) (s : ℤ), 0 ≤ s → s < (items.length : ℤ) →
      RecyclableDatapool.checkout items s
        (some ((s + items.length) % items.length)) = .ok ([] : List α)) ∧
    (∀ (lines : List String) (s : ℤ), 1 ≤ s → s < (lines.length : ℤ) →
      RecyclableFileDatapool.checkout lines s
        (some ((s + lines.length) % lines.length)) = []) ∧
    (∀ lines : List String, 0 < (lines.length : ℤ) →
      RecyclableFileDatapool.checkout lines 0
        (some ((0 + lines.length) % lines.length)) = lines) := by
  refine ⟨fun α items s h0 h1 => ?_, fun lines s h1 h2 => ?_, fun lines hL => ?_⟩
  · have hm : (s + (items.length : ℤ)) % (items.length : ℤ) = s := by
      have h : s + (items.length : ℤ) = s + (items.length : ℤ) * 1 := by ring
      rw [h, Int.add_mul_emod_self_left]
      exact Int.emod_eq_of_lt h0 h1
    rw [hm]
    unfold RecyclableDatapool.checkout
    rw [if_neg (by omega), if_neg (by omega)]
    simp only
    rw [if_neg (by omega), if_neg (by omega)]
    unfold pySlice
    simp
  · have hm : (s + (lines.length : ℤ)) % (lines.length : ℤ) = s := by
      have h : s + (lines.length : ℤ) = s + (lines.length : ℤ) * 1 := by ring
      rw [h, Int.add_mul_emod_self_left]
      exact Int.emod_eq_of_lt (by omega) h2
    rw [hm]
    unfold RecyclableFileDatapool.checkout
    simp only
    rw [if_neg (lt_irrefl s)]
    unfold FileDatapool.checkout
    exact FileDatapool.extractLoop_before_stop lines 0 s (by omega) (by omega)
  · have hm : ((0 : ℤ) + (lines.length : ℤ)) % (lines.length : ℤ) = 0 := by
      rw [zero_add, Int.emod_self]
    rw [hm]
    unfold RecyclableFileDatapool.checkout
    simp only
    rw [if_neg (lt_irrefl (0 : ℤ))]
    unfold FileDatapool.checkout
    exact FileDatapool.extractLoop_stop_zero lines 0 (le_refl 0)

/-- Witness for C4 at the pool `["a","b","c"]`: in-memory at `s = 1` (empty),
file-backed at `s = 1` (empty) and at `s = 0` (every line once). -/
theorem c4_witness :
    RecyclableDatapool.checkout ["a", "b", "c"] 1
        (some ((1 + (["a", "b", "c"] : List String).length) %
          (["a", "b", "c"] : List String).length)) =
      .ok ([] : List String) ∧
    RecyclableFileDatapool.checkout ["a", "b", "c"] 1
        (some ((1 + (["a", "b", "c"] : List String).length) %
          (["a", "b", "c"] : List String).length)) = [] ∧
    RecyclableFileDatapool.checkout ["a", "b", "c"] 0
        (some ((0 + (["a", "b", "c"] : List String).length) %
          (["a", "b", "c"] : List String).length)) = ["a", "b", "c"] :=
  ⟨c4_amended_recyclable_checkout.1 String ["a", "b", "c"] 1 (by decide)
     (by decide),
   c4_amended_recyclable_checkout.2.1 ["a", "b", "c"] 1 (by decide) (by decide),
   c4_amended_recyclable_checkout.2.2 ["a", "b", "c"] (by decide)⟩

/-! ## C6: checkout argument validation -/

/-- **C6, counterexample.**  `FileDatapool.checkout` performs no argument
validation at all: with `start = -1` and `stop = -1` it raises nothing and
yields the first line. -/
theorem c6_counterexample :
    FileDatapool.checkout ["a", "b"] (-1) (some (-1)) = ["a"] := rfl

/-- **C6, amended.**  The *in-memory* datapools validate exactly as claimed:
`IterableDatapool.checkout` errors iff `start < 0`, `start > len`,
`stop < 0` or (being non-recyclable) `stop < start`, and
`RecyclableDatapool.checkout` errors iff `start < 0`, `start > len` or
`stop < 0`; in-range arguments never error.  The file-backed pools do not
validate (see the counterexample). -/
theorem c6_amended_validation {α : Type} (items : List α) (start : ℤ)
    (stop : Option ℤ) :
    (isOkB (IterableDatapool.checkout items false start stop) = false ↔
      (start < 0 ∨ start > (items.length : ℤ) ∨
        ∃ v, stop = some v ∧ (v < 0 ∨ v < start))) ∧
    (isOkB (RecyclableDatapool.checkout items start stop) = false ↔
      (start < 0 ∨ start > (items.length : ℤ) ∨
        ∃ v, stop = some v ∧ v < 0)) := by
  constructor
  · unfold IterableDatapool.checkout
    by_cases h0 : start < 0
    · rw [if_pos h0]; simp [isOkB, h0]
    · rw [if_neg h0]
      by_cases h1 : start > (items.length : ℤ)
      · rw [if_pos h1]; simp [isOkB, h0, h1]
      · rw [if_neg h1]
        rcases stop with _ | v
        · simp [isOkB, h0, h1]
        · simp only
          by_cases h2 : v < 0
          · rw [if_pos h2]; simp [isOkB, h0, h1, h2]
          · rw [if_neg h2]
            by_cases h3 : v < start
            · rw [if_pos ⟨by simp, h3⟩]
              simp [isOkB, h0, h1, h2, h3]
            · rw [if_neg (fun hc => h3 hc.2)]
              simp [isOkB, h0, h1, h2, h3]
  · unfold RecyclableDatapool.checkout
    by_cases h0 : start < 0
    · rw [if_pos h0]; simp [isOkB, h0]
    · rw [if_neg h0]
      by_cases h1 : start > (items.length : ℤ)
      · rw [if_pos h1]; simp [isOkB, h0, h1]
      · rw [if_neg h1]
        rcases stop with _ | v
        · simp [isOkB, h0, h1]
        · simp only
          by_cases h2 : v < 0
          · rw [if_pos h2]; simp [isOkB, h0, h1, h2]
          · rw [if_neg h2]
            by_cases h3 : v < start
            · rw [if_pos h3]; simp [isOkB, h0, h1, h2]
            · rw [if_neg h3]; simp [isOkB, h0, h1, h2]

/-! ## C5: the timeout branch of `ZMQTransport.send` -/

/-- **C5, counterexample.**  On timeout the code runs
`state[key].remove(node_id)` — the set under the *gossiped key*, not
`state["node_register"]`.  Timing out while gossiping `"scenarios"` leaves
`"n"` present in the node register and LWW-removes `"n"` from the
`"scenarios"` set instead. -/
theorem c5_counterexample :
    ((sendTimeoutHandle c5state "scenarios" "n" 10) "node_register").lookup "n" =
      some ⟨some 5, []⟩ ∧
    ((sendTimeoutHandle c5state "scenarios" "n" 10) "scenarios").remove_set "n" ≠
      (c5state "scenarios").remove_set "n" := by
  constructor
  · rfl
  · decide

/-- **C5, amended.**  On a poll timeout, `node_id` is LWW-removed from
`state[key]` — the set under the key being gossiped — and every *other* key's
set is left unchanged; the add side of `state[key]` is untouched, and
(whenever the wall clock is at or past the stored timestamps) `node_id`
subsequently looks up as absent in `state[key]`.  Live-peer erosion of the
node register therefore happens exactly when `key = "node_register"`. -/
theorem c5_amended_timeout (σ : Type)
    (state : String → LWWElementSet String σ) (key node_id : String) (now : ℚ)
    (h1 : ((state key).remove_set node_id).val ≤ now)
    (h2 : ((state key).add_set node_id).val ≤ now) :
    (∀ k, k ≠ key → sendTimeoutHandle state key node_id now k = state k) ∧
    (sendTimeoutHandle state key node_id now key).add_set =
      (state key).add_set ∧
    (sendTimeoutHandle state key node_id now key).lookup node_id = none := by
  refine ⟨fun k hk => ?_, ?_, ?_⟩
  · simp [sendTimeoutHandle, hk]
  · simp [sendTimeoutHandle, LWWElementSet.remove]
  · unfold sendTimeoutHandle
    rw [if_pos rfl]
    have hs : (state key).remove node_id none now [] =
        ⟨(state key).add_set,
         fun k => if k = node_id then addEntry ((state key).remove_set node_id) now []
                  else (state key).remove_set k⟩ := by
      unfold LWWElementSet.remove
      norm_num
    rw [hs]
    unfold LWWElementSet.lookup
    have hrem : addEntry ((state key).remove_set node_id) now [] =
        (⟨some now, []⟩ : Entry σ) := by
      unfold addEntry
      rw [if_pos h1]
    rw [if_neg]
    show ¬ ((state key).add_set node_id).val >
      (if node_id = node_id then addEntry ((state key).remove_set node_id) now []
       else (state key).remove_set node_id).val
    rw [if_pos rfl, hrem]
    show ¬ ((state key).add_set node_id).val > now
    exact not_lt.mpr h2

/-- Witness for C5: timing out on the `"node_register"` key itself does erode
the register. -/
theorem c5_witness :
    ((sendTimeoutHandle c5state "node_register" "n" 10) "node_register").lookup
      "n" = none :=
  (c5_amended_timeout Int c5state "node_register" "n" 10 (by decide)
    (by decide)).2.2

/-! ## C9: `lookup` poisons the wire format -/

/-- **C9.** After one `add` with valid scalar metadata and a `lookup` of the
never-added key `"b"`, both `defaultdict`s hold an empty metadata dict for
`"b"`; `serialize_lww` succeeds (it never validates), but deserializing the
produced message fails the mandatory-timestamp validation.  Before the
lookup, the round trip still succeeded. -/
theorem c9_lookup_breaks_roundtrip :
    serialize_lww c9afterLookup = .ok c9afterLookup.to_dict ∧
    isOkB (deserialize_lww c9afterLookup.to_dict) = false ∧
    List.lookup "b" c9afterLookup.add_set = some (.map []) ∧
    List.lookup "b" c9afterLookup.remove_set = some (.map []) ∧
    isOkB (deserialize_lww c9afterAdd.to_dict) = true := by
  refine ⟨rfl, rfl, rfl, rfl, rfl⟩

/-! ## C7: the serialization round trip -/

theorem validateMetaValues_ok (entries : List (String × Val))
    (h : entries.all (fun kv => isScalar kv.2 && scalarLenOk kv.2) = true) :
    validateMetaValues entries = .ok () := by
  induction entries with
  | nil => rfl
  | cons kv rest ih =>
    rcases kv with ⟨k, v⟩
    simp only [List.all_cons, Bool.and_eq_true] at h
    unfold validateMetaValues
    by_cases hk : k = "timestamp"
    · rw [if_pos hk]
      exact ih h.2
    · rw [if_neg hk, if_neg (fun hc => hc h.1.1), if_neg (fun hc => hc h.1.2)]
      exact ih h.2

theorem validate_metadata_ok (v : Val) (h : wfMeta v = true) :
    validate_metadata v = .ok () := by
  rcases v with s | n | q | b | _ | l | entries
  · exact absurd h (by simp [wfMeta])
  · exact absurd h (by simp [wfMeta])
  · exact absurd h (by simp [wfMeta])
  · exact absurd h (by simp [wfMeta])
  · exact absurd h (by simp [wfMeta])
  · exact absurd h (by simp [wfMeta])
  · simp only [wfMeta, Bool.and_eq_true, decide_eq_true_eq] at h
    obtain ⟨⟨⟨hnodup, hlen⟩, hts⟩, hall⟩ := h
    unfold validate_metadata
    simp only
    rw [if_neg (by omega)]
    rcases hlk : List.lookup "timestamp" entries with _ | tv
    · rw [hlk] at hts
      simp at hts
    · rw [hlk] at hts
      simp only at hts
      simp only
      rcases hnv : numVal tv with _ | q2
      · rw [hnv] at hts
        simp at hts
      · rw [hnv] at hts
        simp only [decide_eq_true_eq] at hts
        simp only
        rw [if_neg (not_lt.mpr hts)]
        exact validateMetaValues_ok entries hall

theorem validateElems_ok (entries : List (String × Val))
    (h : entries.all
      (fun kv => decide (kv.1.length ≤ MAX_STRING_LENGTH) && wfMeta kv.2) =
      true) :
    validateElems entries = .ok () := by
  induction entries with
  | nil => rfl
  | cons kv rest ih =>
    rcases kv with ⟨k, v⟩
    simp only [List.all_cons, Bool.and_eq_true, decide_eq_true_eq] at h
    unfold validateElems
    rw [if_neg (by omega)]
    rw [validate_metadata_ok v h.1.2]
    exact ih h.2

/-- **C7.** For every wire message that satisfies the claim's validity
conditions (string keys — enforced by the model's types —, dict-shaped
scalar-only metadata with a present non-negative numeric timestamp, and
collection/key/string sizes within the limits), serialization succeeds and
deserializing the produced message returns an equal set. -/
theorem c7_serialize_roundtrip (d : LWWData) (h : wfLWW d = true) :
    serialize_lww d = .ok d.to_dict ∧
    deserialize_lww d.to_dict = .ok d := by
  refine ⟨rfl, ?_⟩
  simp only [wfLWW, Bool.and_eq_true, decide_eq_true_eq] at h
  obtain ⟨⟨⟨⟨⟨hnd1, hnd2⟩, hlen1⟩, hlen2⟩, hall1⟩, hall2⟩ := h
  have v1 : validate_element_set (Val.map d.add_set) = .ok () := by
    unfold validate_element_set
    simp only
    rw [if_neg (by omega)]
    exact validateElems_ok d.add_set hall1
  have v2 : validate_element_set (Val.map d.remove_set) = .ok () := by
    unfold validate_element_set
    simp only
    rw [if_neg (by omega)]
    exact validateElems_ok d.remove_set hall2
  have hv : validate_lww_dict (LWWData.to_dict d) =
      (match validate_element_set (Val.map d.add_set) with
       | .error e => Except.error e
       | .ok _ => validate_element_set (Val.map d.remove_set)) := rfl
  show (match validate_lww_dict (LWWData.to_dict d) with
        | .error e => Except.error e
        | .ok _ => LWWData.from_dict (LWWData.to_dict d)) = Except.ok d
  rw [hv, v1]
  simp only
  rw [v2]
  simp only
  rfl

/-- Witness for C7 on a concrete one-element message. -/
theorem c7_witness :
    wfLWW c7data = true ∧ deserialize_lww c7data.to_dict = .ok c7data :=
  ⟨by decide, (c7_serialize_roundtrip c7data (by decide)).2⟩

/-! ## C8: lookup semantics and the add-replacement rule -/

/-- The add-side update at the added key, for a provided nonzero timestamp
(the `or time.time()` defaulting then keeps the provided value). -/
theorem LWWElementSet.add_self_apply {K σ : Type} [DecidableEq K]
    (s : LWWElementSet K σ) (k : K) (t now : ℚ) (x : List (String × σ))
    (ht : t ≠ 0) :
    (s.add k (some t) now x).add_set k = addEntry (s.add_set k) t x := by
  unfold LWWElementSet.add
  simp only [Option.getD_some, if_neg ht]
  simp

/-- **C8, counterexample.**  `add` with the explicit timestamp `0.0` is
*not* governed by the claimed `ts >= existing` rule: `timestamp = timestamp
or time.time()` replaces the falsy `0` with the current wall clock (here 10),
so an entry stored with timestamp 5 is overwritten even though `0 >= 5` is
false. -/
theorem c8_counterexample :
    (c8state.add "k" (some 0) 10 []).add_set "k" ≠ c8state.add_set "k" ∧
    ¬ ((0 : ℚ) ≥ (c8state.add_set "k").val) := by
  constructor
  · decide
  · decide

/-- **C8, amended.**  `lookup(k)` reports `k` present exactly when the stored
add timestamp is strictly greater than the stored remove timestamp (missing
entries read as `0.0`), so equal timestamps leave `k` absent; and `add(k, ts,
extras)` with a *nonzero* `ts` replaces the stored entry iff
`ts ≥ existing.timestamp` (a zero or omitted `ts` is first replaced by the
current wall-clock time, see the counterexample). -/
theorem c8_amended_lookup_and_add {K σ : Type} [DecidableEq K]
    (s : LWWElementSet K σ) (k : K) (t now : ℚ) (x : List (String × σ))
    (ht : t ≠ 0) :
    ((s.lookup k).isSome = true ↔
      (s.add_set k).val > (s.remove_set k).val) ∧
    ((s.add_set k).val = (s.remove_set k).val → s.lookup k = none) ∧
    ((s.add k (some t) now x).add_set k = ⟨some t, x⟩ ↔
      t ≥ (s.add_set k).val) ∧
    (¬ t ≥ (s.add_set k).val →
      (s.add k (some t) now x).add_set k = s.add_set k) := by
  refine ⟨?_, ?_, ?_, ?_⟩
  · unfold LWWElementSet.lookup
    by_cases hgt : (s.add_set k).val > (s.remove_set k).val
    · rw [if_pos hgt]
      simp [hgt]
    · rw [if_neg hgt]
      simp [hgt]
  · intro he
    unfold LWWElementSet.lookup
    rw [if_neg (by rw [he]; exact lt_irrefl _)]
  · rw [LWWElementSet.add_self_apply s k t now x ht]
    unfold addEntry
    by_cases hge : t ≥ (s.add_set k).val
    · rw [if_pos hge]
      simp [hge]
    · rw [if_neg hge]
      constructor
      · intro heq
        exfalso
        apply hge
        rw [heq]
        exact le_refl t
      · intro hc
        exact absurd hc hge
  · intro hng
    rw [LWWElementSet.add_self_apply s k t now x ht]
    unfold addEntry
    rw [if_neg hng]

/-- Witness for C8 at a nonzero timestamp. -/
theorem c8_witness :
    (c8state.add "k" (some 7) 99 []).add_set "k" = ⟨some 7, []⟩ ↔
      (7 : ℚ) ≥ (c8state.add_set "k").val :=
  (c8_amended_lookup_and_add c8state "k" 7 99 [] (by decide)).2.2.1

/-! ## C2: algebraic laws of `merge` -/

theorem Entry.val_none {σ : Type} (x : List (String × σ)) :
    (Entry.mk none x).val = 0 := rfl

theorem Entry.val_some {σ : Type} (t : ℚ) (x : List (String × σ)) :
    (Entry.mk (some t) x).val = t := rfl

theorem mergeEntry_self {σ : Type} (a : Entry σ) : mergeEntry a a = a := by
  rcases a with ⟨ta, xa⟩
  rcases ta with _ | t
  · unfold mergeEntry
    rw [if_pos (Entry.val_none xa)]
  · by_cases h0 : t = (0 : ℚ)
    · unfold mergeEntry
      rw [if_pos (by rw [Entry.val_some]; exact h0)]
    · unfold mergeEntry
      rw [if_neg (by rw [Entry.val_some]; exact h0)]
      unfold addEntry
      rw [if_pos (le_refl _)]
      rfl

theorem mergeEntry_eq_or {σ : Type} (a b : Entry σ) :
    mergeEntry a b = a ∨ mergeEntry a b = b := by
  rcases b with ⟨tb, xb⟩
  rcases tb with _ | t
  · left
    unfold mergeEntry
    rw [if_pos (Entry.val_none xb)]
  · by_cases h0 : t = (0 : ℚ)
    · left
      unfold mergeEntry
      rw [if_pos (by rw [Entry.val_some]; exact h0)]
    · unfold mergeEntry
      rw [if_neg (by rw [Entry.val_some]; exact h0)]
      unfold addEntry
      by_cases hge : (Entry.mk (some t) xb).val ≥ a.val
      · right
        rw [if_pos hge]
        rfl
      · left
        rw [if_neg hge]

theorem Entry.sepB_symm {σ : Type} (a b : Entry σ) (h : a.sepB b = true) :
    b.sepB a = true := by
  rcases a with ⟨ta, xa⟩
  rcases b with ⟨tb, xb⟩
  rcases ta with _ | s <;> rcases tb with _ | t
  · rfl
  · rfl
  · rfl
  · simp only [Entry.sepB, decide_eq_true_eq] at h ⊢
    exact fun hc => h hc.symm

theorem clean_eq_of_val_eq {σ : Type} [DecidableEq σ] (a b : Entry σ)
    (ha : a.cleanB = true) (hb : b.cleanB = true) (hab : a.sepB b = true)
    (h : a.val = b.val) : a = b := by
  rcases a with ⟨ta, xa⟩
  rcases b with ⟨tb, xb⟩
  rcases ta with _ | s <;> rcases tb with _ | t <;>
    simp only [Entry.cleanB, Entry.sepB, decide_eq_true_eq] at ha hb hab
  · rw [ha, hb]
  · rw [Entry.val_none, Entry.val_some] at h
    exact absurd hb (by rw [← h]; exact lt_irrefl 0)
  · rw [Entry.val_some, Entry.val_none] at h
    exact absurd ha (by rw [h]; exact lt_irrefl 0)
  · rw [Entry.val_some, Entry.val_some] at h
    exact absurd h hab

theorem mergeEntry_eq_max {σ : Type} [DecidableEq σ] (a b : Entry σ)
    (ha : a.cleanB = true) (hb : b.cleanB = true) (hab : a.sepB b = true) :
    mergeEntry a b = if a.val < b.val then b else a := by
  rcases a with ⟨ta, xa⟩
  rcases b with ⟨tb, xb⟩
  rcases ta with _ | s <;> rcases tb with _ | t <;>
    simp only [Entry.cleanB, Entry.sepB, decide_eq_true_eq] at ha hb hab
  · unfold mergeEntry
    rw [if_pos (Entry.val_none xb), if_neg (by rw [Entry.val_none, Entry.val_none]; exact lt_irrefl 0)]
  · unfold mergeEntry
    rw [if_neg (by rw [Entry.val_some]; exact ne_of_gt hb)]
    unfold addEntry
    rw [if_pos (by rw [Entry.val_some, Entry.val_none]; exact le_of_lt hb)]
    rw [if_pos (by rw [Entry.val_some, Entry.val_none]; exact hb)]
    rw [Entry.val_some]
  · unfold mergeEntry
    rw [if_pos (Entry.val_none xb)]
    rw [if_neg (by rw [Entry.val_some, Entry.val_none]; exact not_lt.mpr (le_of_lt ha))]
  · unfold mergeEntry
    rw [if_neg (by rw [Entry.val_some]; exact ne_of_gt hb)]
    unfold addEntry
    rw [Entry.val_some, Entry.val_some]
    by_cases hle : t ≥ s
    · have hlt : s < t := lt_of_le_of_ne hle hab
      rw [if_pos hle, if_pos hlt]
    · rw [if_neg hle, if_neg (fun hc => hle (le_of_lt hc))]

theorem mergeEntry_cleanB {σ : Type} [DecidableEq σ] (a b : Entry σ)
    (ha : a.cleanB = true) (hb : b.cleanB = true) :
    (mergeEntry a b).cleanB = true := by
  rcases mergeEntry_eq_or a b with h | h <;> rw [h] <;> assumption

theorem mergeEntry_sepB {σ : Type} (a b c : Entry σ)
    (hac : a.sepB c = true) (hbc : b.sepB c = true) :
    (mergeEntry a b).sepB c = true := by
  rcases mergeEntry_eq_or a b with h | h <;> rw [h] <;> assumption

theorem mergeEntry_assoc_sep {σ : Type} [DecidableEq σ] (a b c : Entry σ)
    (ha : a.cleanB = true) (hb : b.cleanB = true) (hc : c.cleanB = true)
    (hab : a.sepB b = true) (hac : a.sepB c = true) (hbc : b.sepB c = true) :
    mergeEntry (mergeEntry a b) c = mergeEntry a (mergeEntry b c) ∧
    mergeEntry (mergeEntry a b) c = mergeEntry (mergeEntry a c) b := by
  have hmab := mergeEntry_eq_max a b ha hb hab
  have hmac := mergeEntry_eq_max a c ha hc hac
  have hmbc := mergeEntry_eq_max b c hb hc hbc
  have hmcb := mergeEntry_eq_max c b hc hb (Entry.sepB_symm b c hbc)
  constructor
  · by_cases h1 : a.val < b.val
    · rw [hmab, if_pos h1]
      by_cases h2 : b.val < c.val
      · rw [hmbc, if_pos h2]
        rw [hmac, if_pos (lt_trans h1 h2)]
      · rw [hmbc, if_neg h2]
        rw [hmab, if_pos h1]
    · rw [hmab, if_neg h1]
      by_cases h2 : b.val < c.val
      · rw [hmbc, if_pos h2]
      · rw [hmbc, if_neg h2]
        rw [hmab, if_neg h1]
        rw [hmac, if_neg (not_lt.mpr (le_trans (not_lt.mp h2) (not_lt.mp h1)))]
  · by_cases h1 : a.val < b.val
    · rw [hmab, if_pos h1]
      by_cases h2 : b.val < c.val
      · rw [hmbc, if_pos h2]
        rw [hmac, if_pos (lt_trans h1 h2)]
        rw [hmcb, if_neg (not_lt.mpr (le_of_lt h2))]
      · rw [hmbc, if_neg h2]
        by_cases h3 : a.val < c.val
        · rw [hmac, if_pos h3]
          by_cases h4 : c.val < b.val
          · rw [hmcb, if_pos h4]
          · rw [hmcb, if_neg h4]
            exact clean_eq_of_val_eq b c hb hc hbc
              (le_antisymm (not_lt.mp h4) (not_lt.mp h2))
        · rw [hmac, if_neg h3]
          rw [hmab, if_pos h1]
    · rw [hmab, if_neg h1]
      by_cases h3 : a.val < c.val
      · rw [hmac, if_pos h3]
        rw [hmcb, if_neg (not_lt.mpr (le_of_lt (lt_of_le_of_lt (not_lt.mp h1) h3)))]
      · rw [hmac, if_neg h3]
        rw [hmab, if_neg h1]

/-- **C2, counterexample.**  Merge order is observable: with `B` and `C`
holding the key `"k"` at the *same* timestamp 5 but with different metadata,
`merge(merge(A,B),C)` keeps `C`'s metadata while `merge(merge(A,C),B)` keeps
`B`'s (the `ts >= old_ts` rule lets an equal-timestamp writer overwrite), so
the claimed order-independence fails. -/
theorem c2_counterexample :
    ((emptyLWW Int).merge c2B).merge c2C ≠
      ((emptyLWW Int).merge c2C).merge c2B := by
  intro h
  have h2 := congrFun (congrArg LWWElementSet.add_set h) "k"
  exact absurd h2 (by decide)

/-- **C2, amended.**  `merge(A, A) = A` holds unconditionally.  Order
independence (`merge(merge(A,B),C) = merge(A,merge(B,C)) = merge(merge(A,C),B)`)
holds whenever every stored entry is either untouched or carries a positive
timestamp and no key carries the same timestamp in two different operands;
with equal timestamps the metadata merged last wins (see the
counterexample). -/
theorem c2_amended_merge_laws {K σ : Type} [DecidableEq σ]
    (A B C : LWWElementSet K σ)
    (hA : ∀ k, (A.add_set k).cleanB = true ∧ (A.remove_set k).cleanB = true)
    (hB : ∀ k, (B.add_set k).cleanB = true ∧ (B.remove_set k).cleanB = true)
    (hC : ∀ k, (C.add_set k).cleanB = true ∧ (C.remove_set k).cleanB = true)
    (hAB : ∀ k, (A.add_set k).sepB (B.add_set k) = true ∧
      (A.remove_set k).sepB (B.remove_set k) = true)
    (hAC : ∀ k, (A.add_set k).sepB (C.add_set k) = true ∧
      (A.remove_set k).sepB (C.remove_set k) = true)
    (hBC : ∀ k, (B.add_set k).sepB (C.add_set k) = true ∧
      (B.remove_set k).sepB (C.remove_set k) = true) :
    (A.merge B).merge C = A.merge (B.merge C) ∧
    (A.merge B).merge C = (A.merge C).merge B ∧
    ∀ D : LWWElementSet K σ, D.merge D = D := by
  refine ⟨?_, ?_, fun D => ?_⟩
  · unfold LWWElementSet.merge
    congr 1 <;> funext k
    · exact (mergeEntry_assoc_sep _ _ _ (hA k).1 (hB k).1 (hC k).1
        (hAB k).1 (hAC k).1 (hBC k).1).1
    · exact (mergeEntry_assoc_sep _ _ _ (hA k).2 (hB k).2 (hC k).2
        (hAB k).2 (hAC k).2 (hBC k).2).1
  · unfold LWWElementSet.merge
    congr 1 <;> funext k
    · exact (mergeEntry_assoc_sep _ _ _ (hA k).1 (hB k).1 (hC k).1
        (hAB k).1 (hAC k).1 (hBC k).1).2
    · exact (mergeEntry_assoc_sep _ _ _ (hA k).2 (hB k).2 (hC k).2
        (hAB k).2 (hAC k).2 (hBC k).2).2
  · rcases D with ⟨da, dr⟩
    unfold LWWElementSet.merge
    congr 1 <;> funext k <;> exact mergeEntry_self _

/-- Witness for C2 on three one-key sets with distinct positive
timestamps. -/
theorem c2_witness :
    (c2A1.merge c2B1).merge c2C1 = c2A1.merge (c2B1.merge c2C1) :=
  (c2_amended_merge_laws c2A1 c2B1 c2C1
    (by intro k; by_cases hk : k = "k" <;>
      simp [c2A1, singleAdd, hk, Entry.cleanB, Entry.empty])
    (by intro k; by_cases hk : k = "k" <;>
      simp [c2B1, singleAdd, hk, Entry.cleanB, Entry.empty])
    (by intro k; by_cases hk : k = "k" <;>
      simp [c2C1, singleAdd, hk, Entry.cleanB, Entry.empty])
    (by intro k; by_cases hk : k = "k" <;>
      simp [c2A1, c2B1, singleAdd, hk, Entry.sepB, Entry.empty])
    (by intro k; by_cases hk : k = "k" <;>
      simp [c2A1, c2C1, singleAdd, hk, Entry.sepB, Entry.empty])
    (by intro k; by_cases hk : k = "k" <;>
      simp [c2B1, c2C1, singleAdd, hk, Entry.sepB, Entry.empty])).1
